import Mathlib

/-!
Shallow embedding of the WisdomVault Express/MongoDB backend
(`src/index.js` and its route variants under `src/unnamed/`).

MongoDB collections are modelled as Lean lists of documents; the Mongo
operations used by the routes become list operations:
`findOne` is `List.find?`, `insertOne` appends, `updateOne` rewrites the
first matching document (`updateFirst`), `deleteOne` removes the first
matching document (`deleteFirst`), and `deleteMany` filters.  JavaScript
falsiness of optional string fields is modelled by the empty string.
Timestamps (`new Date()`) are milliseconds since the Unix epoch as `Nat`.
-/

/-- Denormalized creator snapshot embedded in a Lesson at creation time
(`creator: { name, email, uid, photo }` in `POST /dashboard/add-lesson`). -/
structure Creator where
  name : String
  email : String
  uid : String
  photo : String
deriving DecidableEq

/-- A Lesson document as stored in the `public-lesson` and `my-lessons`
collections (shape built by `POST /dashboard/add-lesson`). -/
structure Lesson where
  _id : Nat
  title : String
  shortDescription : String
  fullDescription : String
  category : String
  emotionalTone : String
  image : String
  visibility : String
  accessLevel : String
  creator : Creator
  likesCount : Nat
  favoritesCount : Nat
  comments : List String
  favoritedBy : List String
  createdAt : Nat
deriving DecidableEq

/-- An Account document in the `users` collection (shape built by
`POST /users`). -/
structure Account where
  uid : String
  email : String
  name : String
  role : String
  isPremium : Bool
  createdAt : Nat
  photoURL : String
deriving DecidableEq

/-- The collections of `wisdomVaultDB` touched by the verified routes. -/
structure DB where
  users : List Account
  publicLessons : List Lesson
  myLessons : List Lesson
deriving DecidableEq

/-- HTTP outcome of a route handler. -/
inductive Resp where
  | ok
  | badRequest
  | forbidden
deriving DecidableEq

/-- Mongo `updateOne`: rewrite the first document matching `p`. -/
def updateFirst (p : α → Bool) (f : α → α) : List α → List α
  | [] => []
  | x :: xs => if p x then f x :: xs else x :: updateFirst p f xs

/-- Mongo `deleteOne`: remove the first document matching `p`. -/
def deleteFirst (p : α → Bool) : List α → List α
  | [] => []
  | x :: xs => if p x then xs else x :: deleteFirst p xs

/-! ## GET /top-contributors (aggregation pipeline) -/

/-- One `$group` output row of the top-contributors pipeline, keyed by
`creator.name`, before the `$addFields` score stage. -/
structure Grouped where
  name : String
  photo : String
  totalLessons : Nat
  totalLikes : Nat
  totalFavorites : Nat
deriving DecidableEq

/-- A leaderboard row after the `$addFields` score stage. -/
structure ContribRow where
  name : String
  photo : String
  totalLessons : Nat
  totalLikes : Nat
  totalFavorites : Nat
  score : Nat
deriving DecidableEq

/-- Group keys in first-encounter order (the pipeline's `$group` iterates the
matched documents; `$first` below refers to this order). -/
def firstOccurrences : List String → List String
  | [] => []
  | x :: xs => x :: (firstOccurrences xs).filter (fun y => !(y == x))

/-- The `$group` stage: `_id: creator.name`, `photo: $first creator.photo`,
`totalLessons: $sum 1`, `totalLikes: $sum likesCount`,
`totalFavorites: $sum favoritesCount`. -/
def groupByCreator (pub : List Lesson) : List Grouped :=
  (firstOccurrences (pub.map (fun l => l.creator.name))).map (fun n =>
    let g := pub.filter (fun l => l.creator.name == n)
    { name := n
      photo := ((g.head?).map (fun l => l.creator.photo)).getD ""
      totalLessons := g.length
      totalLikes := (g.map (fun l => l.likesCount)).sum
      totalFavorites := (g.map (fun l => l.favoritesCount)).sum })

/-- The `$addFields` stage:
`score = totalLessons*5 + totalLikes*1 + totalFavorites*2`. -/
def addScore (g : Grouped) : ContribRow :=
  { name := g.name, photo := g.photo, totalLessons := g.totalLessons,
    totalLikes := g.totalLikes, totalFavorites := g.totalFavorites,
    score := g.totalLessons * 5 + g.totalLikes * 1 + g.totalFavorites * 2 }

/-- Insert one row into a list sorted descending by score
(`$sort: { score: -1 }`). -/
def insertDesc (r : ContribRow) : List ContribRow → List ContribRow
  | [] => [r]
  | x :: xs => if r.score > x.score then r :: x :: xs else x :: insertDesc r xs

/-- Sort rows descending by score. -/
def sortDesc : List ContribRow → List ContribRow
  | [] => []
  | x :: xs => insertDesc x (sortDesc xs)

/-- `GET /top-contributors`: `$match visibility: "public"`, `$group` by
creator name, `$addFields` score, `$sort score: -1`, `$limit 7`. -/
def topContributors (lessons : List Lesson) : List ContribRow :=
  (sortDesc ((groupByCreator
      (lessons.filter (fun l => l.visibility == "public"))).map addScore)).take 7

/-- A sample public lesson by creator alice with 2 likes and 1 favorite. -/
def lessonA : Lesson :=
  { _id := 1, title := "t", shortDescription := "s", fullDescription := "f",
    category := "c", emotionalTone := "e", image := "",
    visibility := "public", accessLevel := "free",
    creator := { name := "alice", email := "a@x.com", uid := "u1", photo := "" },
    likesCount := 2, favoritesCount := 1, comments := [], favoritedBy := [],
    createdAt := 0 }

/-- The leaderboard row produced for `lessonA` alone. -/
def rowA : ContribRow :=
  { name := "alice", photo := "", totalLessons := 1, totalLikes := 2,
    totalFavorites := 1, score := 9 }

/-! ## POST /dashboard/add-lesson, DELETE /admin/manage-users/:email,
DELETE /admin/users/:email -/

/-- `POST /dashboard/add-lesson` (src/index.js lines 472-509): look up the
authenticated creator, build the lesson with zero engagement counters and a
creator snapshot, and insert the identical document into both the
`public-lesson` and `my-lessons` collections. -/
def addLesson (db : DB) (decodedEmail decodedUid : String)
    (title shortDescription fullDescription category emotionalTone
      visibility accessLevel imageURL : String)
    (newId now : Nat) : Resp × DB :=
  let user := db.users.find? (fun u => u.email == decodedEmail)
  let lesson : Lesson :=
    { _id := newId, title := title, shortDescription := shortDescription,
      fullDescription := fullDescription, category := category,
      emotionalTone := emotionalTone, image := imageURL,
      visibility := visibility, accessLevel := accessLevel,
      creator :=
        { name := match user with
            | some u => if u.name == "" then "Anonymous" else u.name
            | none => "Anonymous"
          email := decodedEmail
          uid := decodedUid
          photo := match user with
            | some u => u.photoURL
            | none => "" }
      likesCount := 0, favoritesCount := 0, comments := [], favoritedBy := [],
      createdAt := now }
  (Resp.ok, { db with publicLessons := db.publicLessons ++ [lesson],
                      myLessons := db.myLessons ++ [lesson] })

/-- `DELETE /admin/manage-users/:email` (src/index.js lines 679-693):
require the caller's Account to have role admin, delete the Account by
email, then `deleteMany` the matching lessons — from the `public-lesson`
collection only; the `my-lessons` collection is not touched by this route. -/
def deleteUserCascade (db : DB) (callerEmail targetEmail : String) : Resp × DB :=
  match db.users.find? (fun u => u.email == callerEmail) with
  | some a =>
    if a.role == "admin" then
      (Resp.ok,
        { db with
          users := deleteFirst (fun u => u.email == targetEmail) db.users,
          publicLessons :=
            db.publicLessons.filter (fun l => !(l.creator.email == targetEmail)) })
    else (Resp.forbidden, db)
  | none => (Resp.forbidden, db)

/-- `DELETE /admin/users/:email` (src/index.js lines 734-743): this route
variant has no token middleware and no role check; it deletes the Account
unconditionally. -/
def adminDeleteUser (db : DB) (email : String) : Resp × DB :=
  (Resp.ok, { db with users := deleteFirst (fun u => u.email == email) db.users })

/-- Dual-index equality: every document of either lesson collection appears
identically in the other. -/
def dualIndexAgree (db : DB) : Bool :=
  db.publicLessons.all (fun l => db.myLessons.any (fun m => m == l)) &&
  db.myLessons.all (fun l => db.publicLessons.any (fun m => m == l))

def acctAdmin : Account :=
  { uid := "ua", email := "admin@x.com", name := "Admin", role := "admin",
    isPremium := false, createdAt := 0, photoURL := "" }

def acctBob : Account :=
  { uid := "ub", email := "bob@x.com", name := "Bob", role := "user",
    isPremium := false, createdAt := 0, photoURL := "" }

/-- A store holding the admin and Bob, before Bob creates any lesson. -/
def dbStart : DB := { users := [acctAdmin, acctBob], publicLessons := [], myLessons := [] }

/-- The store after Bob creates one lesson through the add-lesson route. -/
def dbC1 : DB :=
  (addLesson dbStart "bob@x.com" "ub" "t" "s" "f" "c" "e" "public" "free" "" 1 0).2

def lessonBob : Lesson :=
  { _id := 1, title := "b", shortDescription := "s", fullDescription := "f",
    category := "c", emotionalTone := "e", image := "",
    visibility := "public", accessLevel := "free",
    creator := { name := "Bob", email := "bob@x.com", uid := "ub", photo := "" },
    likesCount := 0, favoritesCount := 0, comments := [], favoritedBy := [],
    createdAt := 0 }

def lessonCarol : Lesson :=
  { _id := 2, title := "cl", shortDescription := "s", fullDescription := "f",
    category := "c", emotionalTone := "e", image := "",
    visibility := "public", accessLevel := "free",
    creator := { name := "Carol", email := "carol@x.com", uid := "uc", photo := "" },
    likesCount := 3, favoritesCount := 1, comments := [], favoritedBy := [],
    createdAt := 0 }

/-- A store where Bob and Carol each own one lesson, present in both indexes. -/
def dbC6 : DB :=
  { users := [acctAdmin, acctBob],
    publicLessons := [lessonBob, lessonCarol],
    myLessons := [lessonBob, lessonCarol] }

/-! ## PATCH /admin/lessons/access/:id and PUT /dashboard/my-lessons/:id -/

/-- `PATCH /admin/lessons/access/:id` (src/index.js lines 840-864): reject
any accessLevel outside `["premium", "free"].includes(accessLevel)` with
BadRequest, otherwise `$set accessLevel` by id in both lesson collections. -/
def setAccessLevel (db : DB) (id : Nat) (accessLevel : String) : Resp × DB :=
  if accessLevel == "premium" || accessLevel == "free" then
    (Resp.ok,
      { db with
        publicLessons := updateFirst (fun l => l._id == id)
          (fun l => { l with accessLevel := accessLevel }) db.publicLessons,
        myLessons := updateFirst (fun l => l._id == id)
          (fun l => { l with accessLevel := accessLevel }) db.myLessons })
  else (Resp.badRequest, db)

/-- The allow-listed field set of `PUT /dashboard/my-lessons/:id`. -/
structure UpdatePatch where
  title : String
  shortDescription : String
  fullDescription : String
  category : String
  emotionalTone : String
  visibility : String
  accessLevel : String
  image : String
deriving DecidableEq

/-- The `$set updateData` document of the lesson-update route. -/
def applyPatch (p : UpdatePatch) (l : Lesson) : Lesson :=
  { l with
    title := p.title
    shortDescription := p.shortDescription
    fullDescription := p.fullDescription
    category := p.category
    emotionalTone := p.emotionalTone
    visibility := p.visibility
    accessLevel := p.accessLevel
    image := p.image }

/-- `PUT /dashboard/my-lessons/:id` (src/index.js lines 550-566): apply the
allow-listed `$set` by id to both lesson collections. -/
def updateLesson (db : DB) (id : Nat) (p : UpdatePatch) : Resp × DB :=
  (Resp.ok,
    { db with
      myLessons := updateFirst (fun l => l._id == id) (applyPatch p) db.myLessons,
      publicLessons := updateFirst (fun l => l._id == id) (applyPatch p) db.publicLessons })

/-- The fields of a Lesson outside the update allow-list: id, creator
snapshot, engagement counters, comments, favoritedBy and creation time. -/
def frameFields (l : Lesson) :
    Nat × Creator × Nat × Nat × List String × List String × Nat :=
  (l._id, l.creator, l.likesCount, l.favoritesCount, l.comments,
    l.favoritedBy, l.createdAt)

/-- A two-index store holding only `lessonA` (id 1, accessLevel free). -/
def dbW : DB := { users := [], publicLessons := [lessonA], myLessons := [lessonA] }

/-- `lessonA` after the admin set its accessLevel to premium. -/
def lessonAPremium : Lesson := { lessonA with accessLevel := "premium" }

/-! ## POST /users (account sync) -/

/-- The `newUser` document inserted by `POST /users` on first sight
(src/unnamed/part_000 lines 306-314): `name || "Anonymous"`,
role user, not premium, `photoURL || ""`. -/
def newUser (uid email name photoURL : String) (now : Nat) : Account :=
  { uid := uid, email := email,
    name := if name == "" then "Anonymous" else name,
    role := "user", isPremium := false, createdAt := now,
    photoURL := if photoURL == "" then "" else photoURL }

/-- `POST /users` (src/index.js lines 424-456): find the Account by uid;
if absent insert `newUser`; if present and still named "Anonymous" while a
real name is supplied, `$set` name and `photoURL || existingUser.photoURL`;
otherwise leave the directory untouched. -/
def syncUser (store : List Account) (uid email name photoURL : String)
    (now : Nat) : List Account :=
  match store.find? (fun u => u.uid == uid) with
  | none => store ++ [newUser uid email name photoURL now]
  | some ex =>
    if ex.name == "Anonymous" && !(name == "") then
      updateFirst (fun u => u.uid == uid)
        (fun u => { u with
                    name := name
                    photoURL := if photoURL == "" then ex.photoURL else photoURL })
        store
    else store

/-! ## GET /dashboard/overview (weeklyStats aggregation) and GET /users/:uid -/

/-- Milliseconds per calendar day. -/
def msPerDay : Nat := 86400000

/-- Mongo `$dayOfWeek` over a UTC millisecond timestamp: 1 (Sunday) through
7 (Saturday); the Unix epoch day was a Thursday. -/
def dayOfWeek (t : Nat) : Nat := (t / msPerDay + 4) % 7 + 1

/-- The `$match` stage of the weeklyStats pipeline: the owner's lessons
created at or after `now` minus 7 days. -/
def weeklyWindow (email : String) (now : Nat) (l : Lesson) : Bool :=
  l.creator.email == email && decide (now - 7 * msPerDay ≤ l.createdAt)

/-- The `$group _id: $dayOfWeek createdAt, count: $sum 1` stage followed by
`$sort _id: 1`, produced by walking the candidate weekday keys in
ascending order and keeping the nonempty buckets. -/
def buckets (m : List Lesson) : List Nat → List (Nat × Nat)
  | [] => []
  | k :: ks =>
    let c := (m.filter (fun l => dayOfWeek l.createdAt == k)).length
    if c = 0 then buckets m ks else (k, c) :: buckets m ks

/-- The `weeklyStats` aggregation of `GET /dashboard/overview`
(src/index.js lines 888-892). -/
def weeklyStats (lessons : List Lesson) (email : String) (now : Nat) :
    List (Nat × Nat) :=
  buckets (lessons.filter (weeklyWindow email now)) [1, 2, 3, 4, 5, 6, 7]

/-- An owner lesson created one day before `now = 14 * msPerDay`. -/
def lessonD1a : Lesson :=
  { _id := 11, title := "d1a", shortDescription := "s", fullDescription := "f",
    category := "c", emotionalTone := "e", image := "",
    visibility := "public", accessLevel := "free",
    creator := { name := "Owner", email := "owner@x.com", uid := "uo", photo := "" },
    likesCount := 0, favoritesCount := 0, comments := [], favoritedBy := [],
    createdAt := 13 * msPerDay }

/-- A second owner lesson created one day before `now`. -/
def lessonD1b : Lesson := { lessonD1a with _id := 12, title := "d1b" }

/-- An owner lesson created three days before `now`. -/
def lessonD3 : Lesson :=
  { lessonD1a with _id := 13, title := "d3", createdAt := 11 * msPerDay }

/-- The response body of `GET /users/:uid`: a found Account rendered as
JSON, or the empty object `{}` from `res.json(user or {})`. -/
inductive UserBody where
  | account (a : Account)
  | emptyObj
deriving DecidableEq

/-- The response of `GET /users/:uid`. -/
inductive GetUserResp where
  | forbidden
  | ok (body : UserBody)
deriving DecidableEq

/-- `GET /users/:uid` (src/index.js lines 195-207): a 403 when the path uid
differs from the authenticated uid, otherwise 200 carrying the Account
found by uid or the empty object when there is none. -/
def getUserByUid (db : DB) (pathUid callerUid : String) : GetUserResp :=
  if !(pathUid == callerUid) then GetUserResp.forbidden
  else
    match db.users.find? (fun u => u.uid == callerUid) with
    | some u => GetUserResp.ok (UserBody.account u)
    | none => GetUserResp.ok UserBody.emptyObj

/-- The HTTP status the handler pairs with each response. -/
def statusOf : GetUserResp → Nat
  | GetUserResp.forbidden => 403
  | GetUserResp.ok _ => 200

/-- A store with an empty User Directory. -/
def dbEmpty : DB := { users := [], publicLessons := [], myLessons := [] }

/-! ## Theorems -/

theorem mem_insertDesc {r a : ContribRow} {l : List ContribRow}
    (h : a ∈ insertDesc r l) : a = r ∨ a ∈ l := by
  induction l with
  | nil => simpa [insertDesc] using h
  | cons x xs ih =>
    by_cases hx : r.score > x.score
    · simpa [insertDesc, hx] using h
    · simp only [insertDesc, if_neg hx, List.mem_cons] at h
      rcases h with h | h
      · exact Or.inr (by simp [h])
      · rcases ih h with h | h
        · exact Or.inl h
        · exact Or.inr (List.mem_cons_of_mem _ h)

theorem mem_sortDesc {a : ContribRow} {l : List ContribRow}
    (h : a ∈ sortDesc l) : a ∈ l := by
  induction l with
  | nil => simp [sortDesc] at h
  | cons x xs ih =>
    simp only [sortDesc] at h
    rcases mem_insertDesc h with h | h
    · simp [h]
    · exact List.mem_cons_of_mem _ (ih h)

/-- C2: every row returned by the top-contributors pipeline satisfies
`score = 5*lessonCount + 1*totalLikes + 2*totalFavorites`; in particular a
contributor group with lessonCount 3, totalLikes 10, totalFavorites 4 is
scored 33. -/
theorem topContributors_score_formula :
    (∀ (lessons : List Lesson) (r : ContribRow), r ∈ topContributors lessons →
      r.score = 5 * r.totalLessons + 1 * r.totalLikes + 2 * r.totalFavorites) ∧
    (addScore { name := "a", photo := "", totalLessons := 3, totalLikes := 10,
                totalFavorites := 4 }).score = 33 := by
  constructor
  · intro lessons r hr
    have h1 : r ∈ sortDesc ((groupByCreator
        (lessons.filter (fun l => l.visibility == "public"))).map addScore) :=
      List.take_subset _ _ hr
    have h2 := mem_sortDesc h1
    rcases List.mem_map.mp h2 with ⟨g, _, rfl⟩
    simp [addScore]
    ring
  · rfl

theorem topContributors_score_formula_witness :
    rowA.score = 5 * rowA.totalLessons + 1 * rowA.totalLikes +
      2 * rowA.totalFavorites :=
  topContributors_score_formula.1 [lessonA] rowA (by decide)

/-- C3: the top-contributors pipeline returns at most 7 rows, and its result
is computed from the public-visibility lessons only (prepending the
`$match visibility: "public"` filter changes nothing). -/
theorem topContributors_top7_public_only :
    (∀ lessons : List Lesson, (topContributors lessons).length ≤ 7) ∧
    (∀ lessons : List Lesson,
      topContributors lessons =
        topContributors (lessons.filter (fun l => l.visibility == "public"))) := by
  constructor
  · intro lessons
    simp only [topContributors, List.length_take]
    exact Nat.min_le_left _ _
  · intro lessons
    simp [topContributors, List.filter_filter]

/-- C1: the dual-index equality invariant holds after Bob's lesson create,
but the admin account-delete cascade removes Bob's lesson from the Public
Content Index only, leaving it in the Owner Content Index, so the invariant
is violated after a successful mutation. -/
theorem cascade_breaks_dual_index :
    dualIndexAgree dbC1 = true ∧
    (deleteUserCascade dbC1 "admin@x.com" "bob@x.com").1 = Resp.ok ∧
    dualIndexAgree (deleteUserCascade dbC1 "admin@x.com" "bob@x.com").2 = false ∧
    (deleteUserCascade dbC1 "admin@x.com" "bob@x.com").2.publicLessons = [] ∧
    (deleteUserCascade dbC1 "admin@x.com" "bob@x.com").2.myLessons = dbC1.myLessons := by
  decide

/-- C6: the admin cascade delete of Bob removes his Account and his lesson
from the `public-lesson` collection and leaves Carol's lesson untouched —
but Bob's lesson is NOT removed from the `my-lessons` collection, contrary
to removal from both content indexes. -/
theorem cascade_leaves_owner_index :
    (deleteUserCascade dbC6 "admin@x.com" "bob@x.com").1 = Resp.ok ∧
    (deleteUserCascade dbC6 "admin@x.com" "bob@x.com").2.users = [acctAdmin] ∧
    (deleteUserCascade dbC6 "admin@x.com" "bob@x.com").2.publicLessons = [lessonCarol] ∧
    (deleteUserCascade dbC6 "admin@x.com" "bob@x.com").2.myLessons
      = [lessonBob, lessonCarol] := by
  decide

/-- C7: the `DELETE /admin/users/:email` route variant performs no
authentication and no admin-role check: it answers OK for every store and
every target, and it really deletes the Account — here Bob, the only user
in the store and a plain role-user, is removed with no admin involved. -/
theorem adminDeleteUser_no_role_check :
    (∀ (db : DB) (email : String), (adminDeleteUser db email).1 = Resp.ok) ∧
    (adminDeleteUser { users := [acctBob], publicLessons := [], myLessons := [] }
        "bob@x.com").2.users = [] := by
  exact ⟨fun db email => rfl, by decide⟩

theorem updateFirst_map_key {κ : Type} (key : α → κ) (p : α → Bool) (f : α → α)
    (hf : ∀ x, key (f x) = key x) :
    ∀ l : List α, (updateFirst p f l).map key = l.map key := by
  intro l
  induction l with
  | nil => rfl
  | cons x xs ih =>
    by_cases hx : p x
    · simp [updateFirst, hx, hf x]
    · simp [updateFirst, hx, ih]

theorem accessLevel_of_mem_updateFirst {l : List Lesson} {id : Nat}
    {lvl : String} {y : Lesson}
    (hnd : (l.map Lesson._id).Nodup)
    (hy : y ∈ updateFirst (fun m => m._id == id)
      (fun m => { m with accessLevel := lvl }) l)
    (hid : y._id = id) : y.accessLevel = lvl := by
  induction l with
  | nil => simp [updateFirst] at hy
  | cons x xs ih =>
    simp only [List.map_cons, List.nodup_cons] at hnd
    by_cases hx : x._id = id
    · have hxb : (x._id == id) = true := beq_iff_eq.mpr hx
      simp [updateFirst, hxb] at hy
      rcases hy with h | h
      · simp [h]
      · have hmem : x._id ∈ xs.map Lesson._id := by
          rw [hx, ← hid]
          exact List.mem_map_of_mem Lesson._id h
        exact absurd hmem hnd.1
    · have hxb : (x._id == id) = false := beq_eq_false_iff_ne.mpr hx
      simp [updateFirst, hxb] at hy
      rcases hy with h | h
      · exact absurd (by rw [← h]; exact hid) hx
      · exact ih hnd.2 h

/-- C4: `setAccessLevel` answers BadRequest and leaves the store unchanged
for every level other than premium and free; for premium or free it answers
OK, preserves the id sequence of both collections, and the lesson carrying
the requested id now carries the requested accessLevel in both the Public
and Owner indexes (ids assumed unique per collection, as Mongo `_id` is). -/
theorem setAccessLevel_validation :
    (∀ (db : DB) (id : Nat) (lvl : String), lvl ≠ "premium" → lvl ≠ "free" →
      setAccessLevel db id lvl = (Resp.badRequest, db)) ∧
    (∀ (db : DB) (id : Nat) (lvl : String), lvl = "premium" ∨ lvl = "free" →
      (setAccessLevel db id lvl).1 = Resp.ok ∧
      (setAccessLevel db id lvl).2.publicLessons.map Lesson._id
        = db.publicLessons.map Lesson._id ∧
      (setAccessLevel db id lvl).2.myLessons.map Lesson._id
        = db.myLessons.map Lesson._id ∧
      ((db.publicLessons.map Lesson._id).Nodup →
        ∀ y ∈ (setAccessLevel db id lvl).2.publicLessons,
          y._id = id → y.accessLevel = lvl) ∧
      ((db.myLessons.map Lesson._id).Nodup →
        ∀ y ∈ (setAccessLevel db id lvl).2.myLessons,
          y._id = id → y.accessLevel = lvl)) := by
  constructor
  · intro db id lvl h1 h2
    have b1 : (lvl == "premium") = false := beq_eq_false_iff_ne.mpr h1
    have b2 : (lvl == "free") = false := beq_eq_false_iff_ne.mpr h2
    simp [setAccessLevel, b1, b2]
  · intro db id lvl h
    have hc : (lvl == "premium" || lvl == "free") = true := by
      rcases h with h | h <;> simp [h]
    refine ⟨by simp [setAccessLevel, hc], ?_, ?_, ?_, ?_⟩
    · simp only [setAccessLevel, hc, if_pos]
      exact updateFirst_map_key Lesson._id (fun l => l._id == id)
        (fun l => { l with accessLevel := lvl }) (fun x => rfl) db.publicLessons
    · simp only [setAccessLevel, hc, if_pos]
      exact updateFirst_map_key Lesson._id (fun l => l._id == id)
        (fun l => { l with accessLevel := lvl }) (fun x => rfl) db.myLessons
    · intro hnd y hy hid
      simp only [setAccessLevel, hc, if_pos] at hy
      exact accessLevel_of_mem_updateFirst hnd hy hid
    · intro hnd y hy hid
      simp only [setAccessLevel, hc, if_pos] at hy
      exact accessLevel_of_mem_updateFirst hnd hy hid

theorem setAccessLevel_validation_witness :
    setAccessLevel dbW 1 "gold" = (Resp.badRequest, dbW) ∧
    (setAccessLevel dbW 1 "premium").1 = Resp.ok ∧
    lessonAPremium.accessLevel = "premium" :=
  ⟨setAccessLevel_validation.1 dbW 1 "gold" (by decide) (by decide),
   (setAccessLevel_validation.2 dbW 1 "premium" (Or.inl rfl)).1,
   (setAccessLevel_validation.2 dbW 1 "premium" (Or.inl rfl)).2.2.2.1
     (by decide) lessonAPremium (by decide) rfl⟩

/-- C8: the lesson-update route touches only the allow-listed fields — in
both collections the sequence of (id, creator snapshot, likesCount,
favoritesCount, comments, favoritedBy, createdAt) is unchanged by every
update call. -/
theorem updateLesson_frame :
    ∀ (db : DB) (id : Nat) (p : UpdatePatch),
      (updateLesson db id p).1 = Resp.ok ∧
      (updateLesson db id p).2.publicLessons.map frameFields
        = db.publicLessons.map frameFields ∧
      (updateLesson db id p).2.myLessons.map frameFields
        = db.myLessons.map frameFields :=
  fun db id p =>
    ⟨rfl,
      updateFirst_map_key frameFields (fun l => l._id == id) (applyPatch p)
        (fun _ => rfl) db.publicLessons,
      updateFirst_map_key frameFields (fun l => l._id == id) (applyPatch p)
        (fun _ => rfl) db.myLessons⟩

theorem find?_append_none {p : α → Bool} {l₁ l₂ : List α}
    (h : l₁.find? p = none) : (l₁ ++ l₂).find? p = l₂.find? p := by
  induction l₁ with
  | nil => rfl
  | cons x xs ih =>
    have hall := List.find?_eq_none.mp h
    have hx : ¬ p x = true := hall x (List.mem_cons_self x xs)
    have ht : xs.find? p = none :=
      List.find?_eq_none.mpr (fun y hy => hall y (List.mem_cons_of_mem x hy))
    rw [List.cons_append, List.find?_cons_of_neg _ hx, ih ht]

theorem updateFirst_append_left {p : α → Bool} {f : α → α} {l₁ l₂ : List α}
    (h : l₁.find? p = none) :
    updateFirst p f (l₁ ++ l₂) = l₁ ++ updateFirst p f l₂ := by
  induction l₁ with
  | nil => rfl
  | cons x xs ih =>
    have hall := List.find?_eq_none.mp h
    have hx : p x = false := Bool.eq_false_iff.mpr (hall x (List.mem_cons_self x xs))
    have ht : xs.find? p = none :=
      List.find?_eq_none.mpr (fun y hy => hall y (List.mem_cons_of_mem x hy))
    simp [updateFirst, hx, ih ht]

theorem find?_updateFirst_some {p : α → Bool} {f : α → α} {l : List α} {a : α}
    (h : l.find? p = some a) (hf : ∀ x, p x = true → p (f x) = true) :
    (updateFirst p f l).find? p = some (f a) := by
  induction l with
  | nil => simp [List.find?] at h
  | cons x xs ih =>
    cases hx : p x with
    | false =>
      have hxn : ¬ p x = true := by simp [hx]
      rw [List.find?_cons_of_neg _ hxn] at h
      have hu : updateFirst p f (x :: xs) = x :: updateFirst p f xs := by
        simp [updateFirst, hx]
      rw [hu, List.find?_cons_of_neg _ hxn, ih h]
    | true =>
      rw [List.find?_cons_of_pos _ hx] at h
      injection h with hxa
      subst hxa
      have hu : updateFirst p f (x :: xs) = f x :: xs := by
        simp [updateFirst, hx]
      rw [hu, List.find?_cons_of_pos _ (hf x hx)]

theorem updateFirst_updateFirst {p : α → Bool} {f g : α → α} {l : List α}
    (h : ∀ x, p x = true → p (f x) = true ∧ g (f x) = f x) :
    updateFirst p g (updateFirst p f l) = updateFirst p f l := by
  induction l with
  | nil => rfl
  | cons x xs ih =>
    cases hx : p x
    · simp [updateFirst, hx, ih]
    · simp [updateFirst, hx, (h x hx).1, (h x hx).2]

theorem filter_updateFirst_length (p : α → Bool) (f : α → α) {l : List α}
    (hf : ∀ x, p (f x) = p x) :
    ((updateFirst p f l).filter p).length = (l.filter p).length := by
  induction l with
  | nil => rfl
  | cons x xs ih =>
    cases hx : p x
    · simp [updateFirst, hx, List.filter_cons, ih]
    · simp [updateFirst, hx, List.filter_cons, hf x]

theorem length_filter_pos_of_find? {p : α → Bool} {l : List α} {a : α}
    (h : l.find? p = some a) : 0 < (l.filter p).length := by
  have hmem : a ∈ l.filter p :=
    List.mem_filter.mpr ⟨List.mem_of_find?_eq_some h, List.find?_some h⟩
  exact List.length_pos.mpr (List.ne_nil_of_mem hmem)

/-- C5: account sync is idempotent — over a User Directory holding at most
one Account with the given subject id, a second `POST /users` call whose
input is identical to the first is a no-op on the directory, and exactly
one Account with that uid exists after the calls. -/
theorem syncUser_idempotent :
    ∀ (store : List Account) (uid email name photoURL : String) (n₁ n₂ : Nat),
      (store.filter (fun u => u.uid == uid)).length ≤ 1 →
      syncUser (syncUser store uid email name photoURL n₁) uid email name
          photoURL n₂ = syncUser store uid email name photoURL n₁ ∧
      ((syncUser store uid email name photoURL n₁).filter
          (fun u => u.uid == uid)).length = 1 := by
  intro store uid email name photoURL n₁ n₂ hcount
  cases hfind : store.find? (fun u => u.uid == uid) with
  | none =>
    have hfnew : ((newUser uid email name photoURL n₁).uid == uid) = true := by
      simp [newUser]
    have hf2 : (store ++ [newUser uid email name photoURL n₁]).find?
        (fun u => u.uid == uid) = some (newUser uid email name photoURL n₁) := by
      rw [find?_append_none hfind,
        List.find?_cons_of_pos (p := fun u : Account => u.uid == uid) _ hfnew]
    constructor
    · simp only [syncUser, hfind, hf2]
      cases hname : (name == "") with
      | true => simp [hname]
      | false =>
        cases hanon : (name == "Anonymous") with
        | false => simp [newUser, hname, hanon]
        | true =>
          have hna : name = "Anonymous" := eq_of_beq hanon
          subst hna
          cases hp : (photoURL == "") with
          | true =>
            have hpe : photoURL = "" := eq_of_beq hp
            subst hpe
            simp [newUser, updateFirst_append_left hfind, updateFirst]
          | false =>
            simp [newUser, updateFirst_append_left hfind, updateFirst, hp]
    · simp only [syncUser, hfind]
      rw [List.filter_append]
      have h1 : store.filter (fun u => u.uid == uid) = [] :=
        List.filter_eq_nil_iff.mpr (List.find?_eq_none.mp hfind)
      simp [h1, List.filter_cons, hfnew]
  | some ex =>
    cases hc : (ex.name == "Anonymous" && !(name == "")) with
    | false =>
      constructor
      · simp [syncUser, hfind, hc]
      · simp only [syncUser, hfind, hc]
        rw [if_neg (by simp)]
        have hpos := length_filter_pos_of_find? hfind
        omega
    | true =>
      have hpf : ∀ x : Account, (x.uid == uid) = true →
          ((({ x with
               name := name
               photoURL := if photoURL == "" then ex.photoURL else photoURL }
            : Account).uid == uid) = true) := fun x hx => hx
      have hf2 := find?_updateFirst_some hfind hpf
      constructor
      · simp only [syncUser, hfind, hc, if_true, hf2]
        split
        · exact updateFirst_updateFirst (fun x hx =>
            ⟨hx, by
              cases x
              cases hp : (photoURL == "") <;> simp [hp]⟩)
        · rfl
      · simp only [syncUser, hfind, hc, if_true]
        rw [filter_updateFirst_length (fun u : Account => u.uid == uid)
          (fun u => { u with
                      name := name
                      photoURL := if photoURL == "" then ex.photoURL else photoURL })
          (fun x => rfl)]
        have hpos := length_filter_pos_of_find? hfind
        omega

theorem syncUser_idempotent_witness :
    syncUser (syncUser [] "u7" "e@x.com" "Ada" "p.png" 5) "u7" "e@x.com"
        "Ada" "p.png" 9 = syncUser [] "u7" "e@x.com" "Ada" "p.png" 5 ∧
    ((syncUser [] "u7" "e@x.com" "Ada" "p.png" 5).filter
        (fun u => u.uid == "u7")).length = 1 :=
  syncUser_idempotent [] "u7" "e@x.com" "Ada" "p.png" 5 9 (by decide)

theorem mem_buckets {m : List Lesson} {ks : List Nat} {q : Nat × Nat}
    (hq : q ∈ buckets m ks) :
    q.1 ∈ ks ∧ 0 < q.2 ∧
      q.2 = (m.filter (fun l => dayOfWeek l.createdAt == q.1)).length := by
  induction ks with
  | nil => simp [buckets] at hq
  | cons k ks ih =>
    simp only [buckets] at hq
    by_cases hc : (m.filter (fun l => dayOfWeek l.createdAt == k)).length = 0
    · rw [if_pos hc] at hq
      obtain ⟨h1, h2, h3⟩ := ih hq
      exact ⟨List.mem_cons_of_mem _ h1, h2, h3⟩
    · rw [if_neg hc] at hq
      rcases List.mem_cons.mp hq with h | h
      · subst h
        exact ⟨List.mem_cons_self _ _, Nat.pos_of_ne_zero hc, rfl⟩
      · obtain ⟨h1, h2, h3⟩ := ih h
        exact ⟨List.mem_cons_of_mem _ h1, h2, h3⟩

theorem buckets_pairwise {m : List Lesson} {ks : List Nat}
    (h : ks.Pairwise (· < ·)) :
    (buckets m ks).Pairwise (fun a b => a.1 < b.1) := by
  induction ks with
  | nil => exact List.Pairwise.nil
  | cons k ks ih =>
    rcases List.pairwise_cons.mp h with ⟨hk, hks⟩
    simp only [buckets]
    by_cases hc : (m.filter (fun l => dayOfWeek l.createdAt == k)).length = 0
    · rw [if_pos hc]
      exact ih hks
    · rw [if_neg hc]
      refine List.pairwise_cons.mpr ⟨?_, ih hks⟩
      intro q hq
      exact hk q.1 (mem_buckets hq).1

/-- C9: the dashboard weekly statistic is sorted ascending by weekday
index, and each bucket (k, c) counts exactly the owner's lessons inside the
trailing-7-day window whose creation timestamp falls on weekday k; on the
concrete data of two lessons created one day before now and one lesson
created three days before now, the buckets are [(2, 1), (4, 2)] — count 2
on D-1's weekday and count 1 on D-3's weekday, ascending. -/
theorem weeklyStats_spec :
    (∀ (lessons : List Lesson) (email : String) (now : Nat),
      (weeklyStats lessons email now).Pairwise (fun a b => a.1 < b.1)) ∧
    (∀ (lessons : List Lesson) (email : String) (now : Nat)
        (q : Nat × Nat), q ∈ weeklyStats lessons email now →
      0 < q.2 ∧
      q.2 = (lessons.filter (fun l =>
        l.creator.email == email &&
        decide (now - 7 * msPerDay ≤ l.createdAt) &&
        (dayOfWeek l.createdAt == q.1))).length) ∧
    weeklyStats [lessonD1a, lessonD1b, lessonD3] "owner@x.com" (14 * msPerDay)
      = [(2, 1), (4, 2)] := by
  refine ⟨?_, ?_, by decide⟩
  · intro lessons email now
    exact buckets_pairwise (by decide)
  · intro lessons email now q hq
    obtain ⟨_, h2, h3⟩ := mem_buckets hq
    refine ⟨h2, ?_⟩
    rw [h3, List.filter_filter]
    have hpred : (fun a : Lesson =>
          dayOfWeek a.createdAt == q.1 && weeklyWindow email now a)
        = (fun l : Lesson => l.creator.email == email &&
            decide (now - 7 * msPerDay ≤ l.createdAt) &&
            (dayOfWeek l.createdAt == q.1)) := by
      funext l
      simp only [weeklyWindow]
      cases ha : (l.creator.email == email) <;>
        cases hb : (decide (now - 7 * msPerDay ≤ l.createdAt)) <;>
          cases hd : (dayOfWeek l.createdAt == q.1) <;> rfl
    rw [hpred]

theorem weeklyStats_spec_witness :
    0 < ((4, 2) : Nat × Nat).2 ∧
    ((4, 2) : Nat × Nat).2 = ([lessonD1a, lessonD1b, lessonD3].filter
      (fun l => l.creator.email == "owner@x.com" &&
        decide (14 * msPerDay - 7 * msPerDay ≤ l.createdAt) &&
        (dayOfWeek l.createdAt == ((4, 2) : Nat × Nat).1))).length :=
  weeklyStats_spec.2.1 [lessonD1a, lessonD1b, lessonD3] "owner@x.com"
    (14 * msPerDay) (4, 2) (by decide)

/-- C10: when the path uid differs from the caller's uid the handler
answers 403 Forbidden; when they match but no Account with that uid exists
it answers status 200 with the empty JSON object, not a 404. -/
theorem getUserByUid_missing_account :
    ∀ (db : DB) (pathUid callerUid : String),
      (pathUid ≠ callerUid →
        getUserByUid db pathUid callerUid = GetUserResp.forbidden ∧
        statusOf (getUserByUid db pathUid callerUid) = 403) ∧
      (pathUid = callerUid →
        db.users.find? (fun u => u.uid == callerUid) = none →
        getUserByUid db pathUid callerUid = GetUserResp.ok UserBody.emptyObj ∧
        statusOf (getUserByUid db pathUid callerUid) = 200) := by
  intro db pathUid callerUid
  constructor
  · intro hne
    have hb : (pathUid == callerUid) = false := beq_eq_false_iff_ne.mpr hne
    constructor <;> simp [getUserByUid, hb, statusOf]
  · intro heq hnone
    subst heq
    constructor <;> simp [getUserByUid, hnone, statusOf]

theorem getUserByUid_missing_account_witness :
    getUserByUid dbEmpty "ua" "ub" = GetUserResp.forbidden ∧
    getUserByUid dbEmpty "ua" "ua" = GetUserResp.ok UserBody.emptyObj :=
  ⟨((getUserByUid_missing_account dbEmpty "ua" "ub").1 (by decide)).1,
   ((getUserByUid_missing_account dbEmpty "ua" "ua").2 rfl (by decide)).1⟩

